import Mathlib

/-!
Verification of the resolution-and-streaming pipeline of a video-downloader
server.  The definitions below are shallow embeddings of the TypeScript
sources: `VideoExtractorService` (platform detection, metadata extraction,
download-link resolution, quality-ladder construction) and the
`/api/stream-video` route handler (streaming proxy, transcode branch).
JavaScript strings are modelled by `String`, substring search
(`String.prototype.includes`) by an explicit list scan, subprocess results by
explicit records, and the event handlers of the streaming route by state
transition functions.
-/

/-- JS `hay.startsWith(needle)` on character lists. -/
def listStartsWith : List Char → List Char → Bool
  | [], _ => true
  | _ :: _, [] => false
  | a :: as, b :: bs => a == b && listStartsWith as bs

/-- Contiguous-substring test on character lists. -/
def listContains : List Char → List Char → Bool
  | needle, [] => needle.isEmpty
  | needle, c :: rest => listStartsWith needle (c :: rest) || listContains needle rest

/-- JS `s.includes(pat)`: `pat` occurs contiguously in `s`. -/
def strIncludes (s pat : String) : Bool := listContains pat.data s.data

/-- ASCII lowercasing (the case folding JS `toLowerCase` performs on every
character of the patterns involved here). -/
def lowerChar (c : Char) : Char :=
  if 65 ≤ c.toNat ∧ c.toNat ≤ 90 then Char.ofNat (c.toNat + 32) else c

def lowerData (s : String) : List Char := s.data.map lowerChar

/-- JS `s.toLowerCase().includes(pat)` for an already-lowercase pattern. -/
def strIncludesLower (s pat : String) : Bool := listContains pat.data (lowerData s)

/-- Case-insensitive test used to model `/pat/i.test(s)` for constant
patterns: both sides are lowercased before the substring search. -/
def includesCI (s pat : String) : Bool := listContains (lowerData pat) (lowerData s)

/-- `supportedPlatforms` field of `VideoExtractorService`
(fixed ordered domain list, short-link aliases included). -/
def supportedPlatforms : List String :=
  ["youtube.com", "youtu.be", "tiktok.com", "instagram.com", "facebook.com",
   "twitter.com", "x.com", "vimeo.com", "reddit.com", "linkedin.com",
   "pinterest.com", "pin.it", "dailymotion.com", "dai.ly"]

/-- The branch chain of `detectPlatform` mapping the matched domain to a
platform name, including the trailing `return 'Unknown'` of the source. -/
def detectFromDomain (domain : String) : String :=
  if strIncludes domain "youtube" || strIncludes domain "youtu.be" then "YouTube"
  else if strIncludes domain "tiktok" then "TikTok"
  else if strIncludes domain "instagram" then "Instagram"
  else if strIncludes domain "facebook" then "Facebook"
  else if strIncludes domain "twitter" || strIncludes domain "x.com" then "Twitter/X"
  else if strIncludes domain "vimeo" then "Vimeo"
  else if strIncludes domain "reddit" then "Reddit"
  else if strIncludes domain "linkedin" then "LinkedIn"
  else if strIncludes domain "pinterest" || strIncludes domain "pin.it" then "Pinterest"
  else if strIncludes domain "dailymotion" || strIncludes domain "dai.ly" then "Dailymotion"
  else "Unknown"

/-- `VideoExtractorService.detectPlatform`: the first domain of
`supportedPlatforms` that occurs in the URL selects the platform name;
no match throws `Unsupported platform` (modelled as `Except.error`).
The function is pure: determinism and absence of side effects are inherent
in the embedding. -/
def detectPlatform (url : String) : Except String String :=
  match supportedPlatforms.find? (fun p => strIncludes url p) with
  | none => Except.error "Unsupported platform"
  | some domain => Except.ok (detectFromDomain domain)

/-- Spec-side table: the canonical platform name each supported-domain entry
is documented to map to (written from the specification's wording, for
comparison with `detectFromDomain`). -/
def canonicalOf (domain : String) : String :=
  if domain = "youtube.com" || domain = "youtu.be" then "YouTube"
  else if domain = "tiktok.com" then "TikTok"
  else if domain = "instagram.com" then "Instagram"
  else if domain = "facebook.com" then "Facebook"
  else if domain = "twitter.com" || domain = "x.com" then "Twitter/X"
  else if domain = "vimeo.com" then "Vimeo"
  else if domain = "reddit.com" then "Reddit"
  else if domain = "linkedin.com" then "LinkedIn"
  else if domain = "pinterest.com" || domain = "pin.it" then "Pinterest"
  else if domain = "dailymotion.com" || domain = "dai.ly" then "Dailymotion"
  else "Unknown"

/-- The ten canonical platform names the service can return. -/
def canonicalPlatformNames : List String :=
  ["YouTube", "TikTok", "Instagram", "Facebook", "Twitter/X",
   "Vimeo", "Reddit", "LinkedIn", "Pinterest", "Dailymotion"]

lemma detectFromDomain_of_supported (d : String) (hd : d ∈ supportedPlatforms) :
    detectFromDomain d = canonicalOf d ∧ detectFromDomain d ∈ canonicalPlatformNames ∧
      detectFromDomain d ≠ "Unknown" := by
  simp only [supportedPlatforms, List.mem_cons, List.not_mem_nil, or_false] at hd
  rcases hd with h|h|h|h|h|h|h|h|h|h|h|h|h|h <;> subst h <;>
    exact ⟨by decide, by decide, by decide⟩

/-- Claim C2: for every URL, if some entry of the fixed supported-domain
list occurs as a substring, `detectPlatform` returns the canonical platform
name of the first matching entry; if no entry occurs, it fails with the
`Unsupported platform` error.  (The embedding is a pure function, hence
deterministic and side-effect free.) -/
theorem detectPlatform_first_match_spec (url : String) :
    (∀ d, supportedPlatforms.find? (fun p => strIncludes url p) = some d →
        detectPlatform url = Except.ok (canonicalOf d)) ∧
    (supportedPlatforms.find? (fun p => strIncludes url p) = none →
        detectPlatform url = Except.error "Unsupported platform") := by
  constructor
  · intro d hfind
    have hmem : d ∈ supportedPlatforms := List.mem_of_find?_eq_some hfind
    have htab := (detectFromDomain_of_supported d hmem).1
    unfold detectPlatform
    rw [hfind]
    exact congrArg Except.ok htab
  · intro hnone
    unfold detectPlatform
    rw [hnone]

/-- Witness for C2 at concrete inputs: a short-link URL resolves through its
alias entry, and an unrelated URL is rejected. -/
theorem detectPlatform_first_match_witness :
    detectPlatform "https://youtu.be/abc123" = Except.ok (canonicalOf "youtu.be") ∧
    detectPlatform "https://example.org/v" = Except.error "Unsupported platform" :=
  ⟨(detectPlatform_first_match_spec "https://youtu.be/abc123").1 "youtu.be" (by decide),
   (detectPlatform_first_match_spec "https://example.org/v").2 (by decide)⟩

/-- Claim C10: `detectPlatform` never produces the value `Unknown`: every URL
either fails with the `Unsupported platform` error or yields one of the ten
canonical platform names, because every supported-domain entry is covered by
a name-mapping branch, leaving the trailing `Unknown` return unreachable. -/
theorem detectPlatform_never_unknown (url : String) :
    detectPlatform url = Except.error "Unsupported platform" ∨
    ∃ p, detectPlatform url = Except.ok p ∧ p ∈ canonicalPlatformNames ∧ p ≠ "Unknown" := by
  unfold detectPlatform
  cases hfind : supportedPlatforms.find? (fun p => strIncludes url p) with
  | none => exact Or.inl rfl
  | some d =>
    have hmem : d ∈ supportedPlatforms := List.mem_of_find?_eq_some hfind
    have htab := detectFromDomain_of_supported d hmem
    exact Or.inr ⟨detectFromDomain d, rfl, htab.2.1, htab.2.2⟩

/-- `QualityOption` of the shared schema. -/
structure QualityOption where
  quality : String
  format : String
  fileSize : String
deriving DecidableEq, Repr

/-- The generic `Audio Only` entry seeded first into the quality map. -/
def audioOnlyOption : QualityOption :=
  { quality := "Audio Only", format := "mp3", fileSize := "Variable" }

/-- One entry of the `formats` array of the tool's JSON record, restricted to
the fields `extractQualities` reads.  `height = 0` models the JS-falsy cases
(absent, `NaN`, or literal 0) of `Number(format.height)`; `ext = none` models
a non-string `ext`; `filesize = 0` / `filesize_approx = 0` model the falsy
cases of those fields. -/
structure RawFormat where
  height : Nat
  vcodec : String
  ext : Option String
  filesize : Nat
  filesize_approx : Nat
deriving DecidableEq, Repr

/-- `formatFileSize`: the unit index is `floor(log bytes / log 1024)`
(`Nat.log 1024`); the JS float division with `toFixed(1)` is rendered here by
exact arithmetic on tenths (the digits differ from the float rounding in
borderline cases, which none of the claims inspect; the shape of the result,
in particular that it is never the string `Unknown` for nonzero input, is
preserved). -/
def formatFileSize (bytes : Nat) : String :=
  if bytes = 0 then "Unknown"
  else
    let i := Nat.log 1024 bytes
    let tenths := bytes * 10 / 1024 ^ i
    Nat.repr (tenths / 10) ++ "." ++ Nat.repr (tenths % 10) ++ " " ++
      (["B", "KB", "MB", "GB"].getD i "undefined")

/-- The quality label computed from a stream height by `extractQualities`. -/
def labelOfHeight (h : Nat) : String :=
  if h ≥ 2160 then "4K (2160p)"
  else if h ≥ 1440 then "2K (1440p)"
  else if h ≥ 1080 then "1080p HD"
  else if h ≥ 720 then "720p HD"
  else Nat.repr h ++ "p"

/-- The `fileSize` string of a format entry:
`format.filesize ? fmt(filesize) : format.filesize_approx ? fmt(approx) : 'Unknown'`. -/
def fmtFileSizeOf (f : RawFormat) : String :=
  if f.filesize ≠ 0 then formatFileSize f.filesize
  else if f.filesize_approx ≠ 0 then formatFileSize f.filesize_approx
  else "Unknown"

/-- `typeof format.ext === 'string' ? format.ext : 'mp4'`. -/
def extOf (f : RawFormat) : String := f.ext.getD "mp4"

/-- The guard `if (!height || format.vcodec === 'none') return;`. -/
def skippedFormat (f : RawFormat) : Bool := f.height = 0 || f.vcodec == "none"

def mkOption (label ext fz : String) : QualityOption :=
  { quality := label, format := ext, fileSize := fz }

/-- The replacement test of `extractQualities`:
`(existing.fileSize === 'Unknown' && fileSize !== 'Unknown') ||
 (ext === 'mp4' && existing.format !== 'mp4')`. -/
def preferNew (e : QualityOption) (ext fz : String) : Bool :=
  decide ((e.fileSize = "Unknown" ∧ fz ≠ "Unknown") ∨ (ext = "mp4" ∧ e.format ≠ "mp4"))

/-- The JS `Map<string, QualityOption>` with insertion order, modelled as an
association list: `set` replaces in place when the key is present and appends
otherwise, `get` returns the first (and, invariantly, only) entry of the key. -/
abbrev QMap := List (String × QualityOption)

def mapHasKey : QMap → String → Bool
  | [], _ => false
  | p :: t, k => if p.1 = k then true else mapHasKey t k

def mapReplace (k : String) (v : QualityOption) : QMap → QMap
  | [] => []
  | p :: t => (if p.1 = k then (k, v) else p) :: mapReplace k v t

def mapSet (m : QMap) (k : String) (v : QualityOption) : QMap :=
  if mapHasKey m k then mapReplace k v m else m ++ [(k, v)]

def mapGet : QMap → String → Option QualityOption
  | [], _ => none
  | p :: t, k => if p.1 = k then some p.2 else mapGet t k

/-- The body of the `formats.forEach` loop of `extractQualities`: compute
label, container and size string of the declared stream, then insert or
conditionally overwrite the entry of that label. -/
def qualityStep (m : QMap) (f : RawFormat) : QMap :=
  if skippedFormat f then m
  else
    match mapGet m (labelOfHeight f.height) with
    | none =>
        mapSet m (labelOfHeight f.height)
          (mkOption (labelOfHeight f.height) (extOf f) (fmtFileSizeOf f))
    | some existing =>
        if preferNew existing (extOf f) (fmtFileSizeOf f) then
          mapSet m (labelOfHeight f.height)
            (mkOption (labelOfHeight f.height) (extOf f) (fmtFileSizeOf f))
        else m

/-- The map seeded with the audio entry (`qualityMap.set('audio', ...)`). -/
def initialQMap : QMap := [("audio", audioOnlyOption)]

/-- `parseInt(s.replace(/\D/g, '')) || 0`: all digit characters of the label
concatenated and read as a number, `0` when there is none. -/
def parseHeight (s : String) : Nat :=
  (s.data.filter Char.isDigit).foldl (fun a c => a * 10 + (c.toNat - 48)) 0

/-- The comparator passed to `sort` (positive result orders `a` after `b`). -/
def qualityCompare (a b : QualityOption) : Int :=
  if a.quality = "Audio Only" then 1
  else if b.quality = "Audio Only" then -1
  else (parseHeight b.quality : Int) - (parseHeight a.quality : Int)

/-- The total preorder realising the comparator's order for the sort call:
audio-only entries sort after everything, other entries by descending
`parseHeight` of their labels.  (It deviates from `qualityCompare ≤ 0` only
on a pair of two audio entries, which a quality map never contains; see
`qualityLe_agrees_compare`.) -/
def qualityLe (a b : QualityOption) : Bool :=
  if a.quality = "Audio Only" then b.quality = "Audio Only"
  else if b.quality = "Audio Only" then true
  else parseHeight b.quality ≤ parseHeight a.quality

lemma qualityLe_agrees_compare (a b : QualityOption)
    (h : ¬(a.quality = "Audio Only" ∧ b.quality = "Audio Only")) :
    qualityLe a b = true ↔ qualityCompare a b ≤ 0 := by
  unfold qualityLe qualityCompare
  by_cases ha : a.quality = "Audio Only" <;> by_cases hb : b.quality = "Audio Only"
  · exact absurd ⟨ha, hb⟩ h
  · simp [ha, hb]
  · simp [ha, hb]
  · simp only [ha, hb, if_false, decide_eq_true_eq]
    constructor
    · intro hle
      omega
    · intro hle
      omega

/-- `VideoExtractorService.extractQualities`: seed the audio entry, fold the
declared formats through the keyed merge, then sort by the comparator. -/
def extractQualities (formats : List RawFormat) : List QualityOption :=
  ((formats.foldl qualityStep initialQMap).map Prod.snd).mergeSort qualityLe

lemma mapGet_append (m m' : QMap) (k : String) :
    mapGet (m ++ m') k = (mapGet m k).or (mapGet m' k) := by
  induction m with
  | nil => rfl
  | cons p t ih =>
    by_cases hp : p.1 = k <;> simp [mapGet, hp, ih]

lemma mapGet_mapReplace_self (m : QMap) (k : String) (v : QualityOption)
    (h : mapHasKey m k = true) : mapGet (mapReplace k v m) k = some v := by
  induction m with
  | nil => simp [mapHasKey] at h
  | cons p t ih =>
    by_cases hp : p.1 = k
    · simp [mapReplace, mapGet, hp]
    · simp only [mapHasKey, if_neg hp] at h
      simp [mapReplace, mapGet, hp, ih h]

lemma mapGet_mapReplace_other (m : QMap) (k k' : String) (v : QualityOption) (hne : k' ≠ k) :
    mapGet (mapReplace k v m) k' = mapGet m k' := by
  induction m with
  | nil => rfl
  | cons p t ih =>
    by_cases hp : p.1 = k
    · have hkk' : ¬(k = k') := fun h => hne h.symm
      simp [mapReplace, mapGet, hp, hkk', ih]
    · simp [mapReplace, mapGet, hp, ih]

lemma mapGet_mapSet_self (m : QMap) (k : String) (v : QualityOption) :
    mapGet (mapSet m k v) k = some v := by
  unfold mapSet
  by_cases h : mapHasKey m k = true
  · rw [if_pos h]
    exact mapGet_mapReplace_self m k v h
  · rw [if_neg h, mapGet_append]
    have hnone : mapGet m k = none := by
      induction m with
      | nil => rfl
      | cons p t ih =>
        by_cases hp : p.1 = k
        · exact absurd (by simp [mapHasKey, hp]) h
        · simp only [mapHasKey, if_neg hp] at h
          simp [mapGet, hp, ih h]
    simp [hnone, mapGet]

lemma mapGet_mapSet_other (m : QMap) (k k' : String) (v : QualityOption) (hne : k' ≠ k) :
    mapGet (mapSet m k v) k' = mapGet m k' := by
  unfold mapSet
  by_cases h : mapHasKey m k = true
  · rw [if_pos h]
    exact mapGet_mapReplace_other m k k' v hne
  · rw [if_neg h, mapGet_append]
    have : mapGet [(k, v)] k' = none := by
      have hk : ¬((k, v).1 = k') := fun hh => hne (Eq.symm hh)
      simp [mapGet, hk]
    rw [this]
    cases mapGet m k' <;> rfl

/-- Replacement test lifted to an optional existing entry: an absent key is
always (re)written, matching the insert branch of the loop. -/
def preferO (o : Option QualityOption) (ext fz : String) : Bool :=
  match o with
  | none => true
  | some e => preferNew e ext fz

/-- The effect of one loop iteration on the entry of a single label `L`:
irrelevant formats (skipped, or mapping to a different label) leave it
unchanged. -/
def gStep (L : String) (o : Option QualityOption) (f : RawFormat) : Option QualityOption :=
  if skippedFormat f then o
  else if labelOfHeight f.height = L then
    (if preferO o (extOf f) (fmtFileSizeOf f) then some (mkOption L (extOf f) (fmtFileSizeOf f))
     else o)
  else o

lemma mapGet_qualityStep (m : QMap) (f : RawFormat) (L : String) :
    mapGet (qualityStep m f) L = gStep L (mapGet m L) f := by
  unfold qualityStep gStep
  by_cases hs : skippedFormat f = true
  · simp [hs]
  · by_cases hL : labelOfHeight f.height = L
    · subst hL
      cases hget : mapGet m (labelOfHeight f.height) with
      | none => simp [hs, hget, preferO, mapGet_mapSet_self]
      | some e =>
        by_cases hp : preferNew e (extOf f) (fmtFileSizeOf f) = true
        · simp [hs, hget, preferO, hp, mapGet_mapSet_self]
        · simp [hs, hget, preferO, hp]
    · have hL' : L ≠ labelOfHeight f.height := fun h => hL h.symm
      cases hget : mapGet m (labelOfHeight f.height) with
      | none => simp [hs, hget, hL, mapGet_mapSet_other _ _ _ _ hL']
      | some e =>
        by_cases hp : preferNew e (extOf f) (fmtFileSizeOf f) = true
        · simp [hs, hget, hL, hp, mapGet_mapSet_other _ _ _ _ hL']
        · simp [hs, hget, hL, hp]

lemma mapGet_foldl (fs : List RawFormat) (m : QMap) (L : String) :
    mapGet (fs.foldl qualityStep m) L = fs.foldl (gStep L) (mapGet m L) := by
  induction fs generalizing m with
  | nil => rfl
  | cons f rest ih =>
    simp only [List.foldl_cons]
    rw [ih, mapGet_qualityStep]

lemma preferNew_elim {e : QualityOption} {ext fz : String}
    (h : ¬preferNew e ext fz = true) :
    (e.fileSize = "Unknown" → fz = "Unknown") ∧ (e.format ≠ "mp4" → ext ≠ "mp4") := by
  unfold preferNew at h
  rw [decide_eq_true_eq] at h
  constructor
  · intro hu
    by_contra hfz
    exact h (Or.inl ⟨hu, hfz⟩)
  · intro hfmt hext
    exact h (Or.inr ⟨hext, hfmt⟩)

/-- Key monotonicity fact behind idempotence of the merge: if an entry is not
replaced by an incoming format, then the written-out entry of that format
would accept exactly the same (or fewer) future replacements than the current
entry does. -/
lemma preferO_mono_of_not_prefer {o : Option QualityOption} {L ext fz : String}
    (h : ¬preferO o ext fz = true) (ext' fz' : String)
    (hp : preferO o ext' fz' = true) :
    preferO (some (mkOption L ext fz)) ext' fz' = true := by
  cases o with
  | none => exact absurd rfl h
  | some e =>
    have helim := preferNew_elim h
    simp only [preferO] at hp ⊢
    unfold preferNew at hp ⊢
    rw [decide_eq_true_eq] at hp ⊢
    rcases hp with ⟨hu, hfz'⟩ | ⟨hext', hfmt⟩
    · exact Or.inl ⟨helim.1 hu, hfz'⟩
    · exact Or.inr ⟨hext', fun hx => (helim.2 hfmt) hx⟩

/-- Invariant of the second pass over the same format list: the second-pass
state is either equal to the first-pass state at the same position, or it has
already reached the final first-pass value and that value accepts no
replacement the current state would refuse. -/
lemma foldl_gStep_invariant (L : String) (fs : List RawFormat) :
    ∀ (s t w : Option QualityOption), w = fs.foldl (gStep L) s →
      (t = s ∨ (t = w ∧ ∀ ex fz, preferO w ex fz = true → preferO s ex fz = true)) →
      fs.foldl (gStep L) t = w := by
  induction fs with
  | nil =>
    intro s t w hw ht
    rcases ht with rfl | ⟨rfl, _⟩
    · exact hw.symm
    · rfl
  | cons f rest ih =>
    intro s t w hw ht
    simp only [List.foldl_cons] at hw ⊢
    rcases ht with rfl | ⟨rfl, hmono⟩
    · exact ih _ _ w hw (Or.inl rfl)
    · by_cases hs : skippedFormat f = true
      · have hwt : gStep L t f = t := by simp [gStep, hs]
        rw [hwt]
        refine ih (gStep L s f) t t hw (Or.inr ⟨rfl, ?_⟩)
        have hst : gStep L s f = s := by simp [gStep, hs]
        rw [hst]
        exact hmono
      · by_cases hL : labelOfHeight f.height = L
        · by_cases hpw : preferO t (extOf f) (fmtFileSizeOf f) = true
          · have hps : preferO s (extOf f) (fmtFileSizeOf f) = true := hmono _ _ hpw
            have hseq : gStep L t f = gStep L s f := by
              simp [gStep, hs, hL, hpw, hps]
            rw [hseq]
            exact ih (gStep L s f) (gStep L s f) t hw (Or.inl rfl)
          · have hwt : gStep L t f = t := by
              simp [gStep, hs, hL, hpw]
            rw [hwt]
            refine ih (gStep L s f) t t hw (Or.inr ⟨rfl, ?_⟩)
            intro ex fz hp
            by_cases hps : preferO s (extOf f) (fmtFileSizeOf f) = true
            · have : gStep L s f = some (mkOption L (extOf f) (fmtFileSizeOf f)) := by
                simp [gStep, hs, hL, hps]
              rw [this]
              exact preferO_mono_of_not_prefer hpw ex fz hp
            · have : gStep L s f = s := by
                simp [gStep, hs, hL, hps]
              rw [this]
              exact hmono ex fz hp
        · have hwt : gStep L t f = t := by simp [gStep, hs, hL]
          rw [hwt]
          refine ih (gStep L s f) t t hw (Or.inr ⟨rfl, ?_⟩)
          have hst : gStep L s f = s := by simp [gStep, hs, hL]
          rw [hst]
          exact hmono

/-- Folding the same formats a second time over an already-merged entry does
not change it. -/
lemma foldl_gStep_idem (L : String) (fs : List RawFormat) :
    fs.foldl (gStep L) (fs.foldl (gStep L) none) = fs.foldl (gStep L) none := by
  refine foldl_gStep_invariant L fs none (fs.foldl (gStep L) none) (fs.foldl (gStep L) none)
    rfl (Or.inr ⟨rfl, ?_⟩)
  intro ex fz _
  rfl

/-- The numeric key the comparator effectively extracts from each generated
label (`parseInt` of the concatenated digits): `4K (2160p)` yields 42160,
`2K (1440p)` yields 21440. -/
def canonHeightKey (h : Nat) : Nat :=
  if h ≥ 2160 then 42160
  else if h ≥ 1440 then 21440
  else if h ≥ 1080 then 1080
  else if h ≥ 720 then 720
  else h

set_option maxRecDepth 10000 in
set_option maxHeartbeats 4000000 in
lemma small_label_facts : ∀ h : Nat, h < 720 →
    parseHeight (Nat.repr h ++ "p") = h ∧ (Nat.repr h ++ "p") ≠ "audio" ∧
      (Nat.repr h ++ "p") ≠ "Audio Only" := by decide

lemma labelOfHeight_key (h : Nat) : parseHeight (labelOfHeight h) = canonHeightKey h := by
  unfold labelOfHeight canonHeightKey
  by_cases h1 : h ≥ 2160
  · simp only [h1, if_true]
    decide
  · by_cases h2 : h ≥ 1440
    · simp only [h1, h2, if_false, if_true]
      decide
    · by_cases h3 : h ≥ 1080
      · simp only [h1, h2, h3, if_false, if_true]
        decide
      · by_cases h4 : h ≥ 720
        · simp only [h1, h2, h3, h4, if_false, if_true]
          decide
        · simp only [h1, h2, h3, h4, if_false]
          exact (small_label_facts h (by omega)).1

lemma labelOfHeight_ne_special (h : Nat) :
    labelOfHeight h ≠ "audio" ∧ labelOfHeight h ≠ "Audio Only" := by
  unfold labelOfHeight
  by_cases h1 : h ≥ 2160
  · simp only [h1, if_true]
    exact ⟨by decide, by decide⟩
  · by_cases h2 : h ≥ 1440
    · simp only [h1, h2, if_false, if_true]
      exact ⟨by decide, by decide⟩
    · by_cases h3 : h ≥ 1080
      · simp only [h1, h2, h3, if_false, if_true]
        exact ⟨by decide, by decide⟩
      · by_cases h4 : h ≥ 720
        · simp only [h1, h2, h3, h4, if_false, if_true]
          exact ⟨by decide, by decide⟩
        · simp only [h1, h2, h3, h4, if_false]
          exact (small_label_facts h (by omega)).2

lemma labelOfHeight_eq_of_key_eq (h1 h2 : Nat)
    (hk : parseHeight (labelOfHeight h1) = parseHeight (labelOfHeight h2)) :
    labelOfHeight h1 = labelOfHeight h2 := by
  rw [labelOfHeight_key, labelOfHeight_key] at hk
  unfold canonHeightKey at hk
  unfold labelOfHeight
  by_cases a1 : h1 ≥ 2160 <;> by_cases a2 : h1 ≥ 1440 <;> by_cases a3 : h1 ≥ 1080 <;>
    by_cases a4 : h1 ≥ 720 <;> by_cases b1 : h2 ≥ 2160 <;> by_cases b2 : h2 ≥ 1440 <;>
    by_cases b3 : h2 ≥ 1080 <;> by_cases b4 : h2 ≥ 720 <;>
    simp only [a1, a2, a3, a4, b1, b2, b3, b4, if_true, if_false] at hk ⊢ <;>
    first
      | rfl
      | omega
      | (exact congrArg (fun n => Nat.repr n ++ "p") hk)

def keysOf (m : QMap) : List String := m.map Prod.fst

/-- Structural invariant of the quality map: the seeded audio entry sits
under key `audio` with its original value, and every other entry is keyed by
its own label, which is one generated by `labelOfHeight`. -/
def goodEntry (p : String × QualityOption) : Prop :=
  (p.1 = "audio" ∧ p.2 = audioOnlyOption) ∨
  (p.2.quality = p.1 ∧ ∃ h, p.1 = labelOfHeight h)

lemma mem_mapReplace {q : String × QualityOption} (k : String) (v : QualityOption)
    (m : QMap) (hq : q ∈ mapReplace k v m) : q = (k, v) ∨ q ∈ m := by
  induction m with
  | nil => exact absurd hq (List.not_mem_nil q)
  | cons p t ih =>
    simp only [mapReplace, List.mem_cons] at hq
    rcases hq with hq | hq
    · by_cases hp : p.1 = k
      · rw [if_pos hp] at hq
        exact Or.inl hq
      · rw [if_neg hp] at hq
        refine Or.inr ?_
        rw [hq]
        exact List.mem_cons_self p t
    · rcases ih hq with h | h
      · exact Or.inl h
      · exact Or.inr (List.mem_cons_of_mem p h)

lemma mem_mapSet {q : String × QualityOption} (m : QMap) (k : String) (v : QualityOption)
    (hq : q ∈ mapSet m k v) : q = (k, v) ∨ q ∈ m := by
  unfold mapSet at hq
  by_cases h : mapHasKey m k = true
  · rw [if_pos h] at hq
    exact mem_mapReplace k v m hq
  · rw [if_neg h] at hq
    rcases List.mem_append.mp hq with h1 | h1
    · exact Or.inr h1
    · simp only [List.mem_singleton] at h1
      exact Or.inl h1

lemma good_qualityStep (m : QMap) (f : RawFormat)
    (hg : ∀ p ∈ m, goodEntry p) : ∀ p ∈ qualityStep m f, goodEntry p := by
  intro q hq
  unfold qualityStep at hq
  have hfresh : ∀ (hq' : q = (labelOfHeight f.height,
      mkOption (labelOfHeight f.height) (extOf f) (fmtFileSizeOf f))), goodEntry q := by
    intro hq'
    rw [hq']
    exact Or.inr ⟨rfl, ⟨f.height, rfl⟩⟩
  by_cases hs : skippedFormat f = true
  · rw [if_pos hs] at hq
    exact hg q hq
  · rw [if_neg hs] at hq
    cases hget : mapGet m (labelOfHeight f.height) with
    | none =>
      simp only [hget] at hq
      rcases mem_mapSet m _ _ hq with h | h
      · exact hfresh h
      · exact hg q h
    | some e =>
      simp only [hget] at hq
      by_cases hp : preferNew e (extOf f) (fmtFileSizeOf f) = true
      · rw [if_pos hp] at hq
        rcases mem_mapSet m _ _ hq with h | h
        · exact hfresh h
        · exact hg q h
      · rw [if_neg hp] at hq
        exact hg q hq

lemma good_foldl (fs : List RawFormat) (m : QMap)
    (hg : ∀ p ∈ m, goodEntry p) : ∀ p ∈ fs.foldl qualityStep m, goodEntry p := by
  induction fs generalizing m with
  | nil => exact hg
  | cons f rest ih => exact ih (qualityStep m f) (good_qualityStep m f hg)

lemma keysOf_mapReplace (k : String) (v : QualityOption) (m : QMap) :
    keysOf (mapReplace k v m) = keysOf m := by
  induction m with
  | nil => rfl
  | cons p t ih =>
    simp only [keysOf] at ih ⊢
    by_cases hp : p.1 = k
    · simp [mapReplace, hp, ih]
    · simp [mapReplace, hp, ih]

lemma mapHasKey_iff_mem (m : QMap) (k : String) :
    mapHasKey m k = true ↔ k ∈ keysOf m := by
  induction m with
  | nil => simp [mapHasKey, keysOf]
  | cons p t ih =>
    simp only [keysOf] at ih ⊢
    by_cases hp : p.1 = k
    · simp [mapHasKey, hp]
    · have hkp : ¬(k = p.1) := fun h => hp h.symm
      simp [mapHasKey, hp, hkp, ih]

lemma mapGet_none_iff (m : QMap) (k : String) :
    mapGet m k = none ↔ mapHasKey m k = false := by
  induction m with
  | nil => simp [mapGet, mapHasKey]
  | cons p t ih =>
    by_cases hp : p.1 = k
    · simp [mapGet, mapHasKey, hp]
    · simp [mapGet, mapHasKey, hp, ih]

lemma keysOf_mapSet_present (m : QMap) (k : String) (v : QualityOption)
    (h : mapHasKey m k = true) : keysOf (mapSet m k v) = keysOf m := by
  unfold mapSet
  rw [if_pos h]
  exact keysOf_mapReplace k v m

lemma keysOf_mapSet_absent (m : QMap) (k : String) (v : QualityOption)
    (h : mapHasKey m k = false) : keysOf (mapSet m k v) = keysOf m ++ [k] := by
  unfold mapSet
  rw [if_neg (by simp [h]), keysOf, List.map_append]
  rfl

lemma nodup_keys_qualityStep (m : QMap) (f : RawFormat)
    (hn : (keysOf m).Nodup) : (keysOf (qualityStep m f)).Nodup := by
  unfold qualityStep
  by_cases hs : skippedFormat f = true
  · rw [if_pos hs]
    exact hn
  · rw [if_neg hs]
    cases hget : mapGet m (labelOfHeight f.height) with
    | none =>
      have habs : mapHasKey m (labelOfHeight f.height) = false := (mapGet_none_iff m _).mp hget
      simp only [hget]
      rw [keysOf_mapSet_absent m _ _ habs, List.nodup_append]
      refine ⟨hn, List.nodup_singleton _, ?_⟩
      intro a ha hb
      simp only [List.mem_singleton] at hb
      subst hb
      exact absurd ((mapHasKey_iff_mem m _).mpr ha) (by simp [habs])
    | some e =>
      simp only [hget]
      by_cases hp : preferNew e (extOf f) (fmtFileSizeOf f) = true
      · rw [if_pos hp]
        have hpres : mapHasKey m (labelOfHeight f.height) = true := by
          cases hhk : mapHasKey m (labelOfHeight f.height) with
          | true => rfl
          | false => rw [(mapGet_none_iff m _).mpr hhk] at hget; exact absurd hget (by simp)
        rw [keysOf_mapSet_present m _ _ hpres]
        exact hn
      · rw [if_neg hp]
        exact hn

lemma nodup_keys_foldl (fs : List RawFormat) (m : QMap)
    (hn : (keysOf m).Nodup) : (keysOf (fs.foldl qualityStep m)).Nodup := by
  induction fs generalizing m with
  | nil => exact hn
  | cons f rest ih => exact ih (qualityStep m f) (nodup_keys_qualityStep m f hn)

lemma mapGet_none_of_not_mem_keys (m : QMap) (k : String) (h : k ∉ keysOf m) :
    mapGet m k = none := by
  induction m with
  | nil => rfl
  | cons p t ih =>
    simp only [keysOf, List.map_cons, List.mem_cons, not_or] at h
    have hp : ¬p.1 = k := fun hh => h.1 hh.symm
    simp only [mapGet, if_neg hp]
    exact ih h.2

lemma qmap_ext (m1 m2 : QMap) (hk : keysOf m1 = keysOf m2) (hn : (keysOf m1).Nodup)
    (hget : ∀ k, mapGet m1 k = mapGet m2 k) : m1 = m2 := by
  induction m1 generalizing m2 with
  | nil =>
    cases m2 with
    | nil => rfl
    | cons q u => exact absurd hk (by simp [keysOf])
  | cons p t ih =>
    cases m2 with
    | nil => exact absurd hk (by simp [keysOf])
    | cons q u =>
      simp only [keysOf, List.map_cons, List.cons.injEq] at hk
      obtain ⟨hk1, hk2⟩ := hk
      have hv : p.2 = q.2 := by
        have h1 := hget p.1
        have hl : mapGet (p :: t) p.1 = some p.2 := by simp [mapGet]
        have hr : mapGet (q :: u) p.1 = some q.2 := by simp [mapGet, hk1.symm]
        rw [hl, hr] at h1
        exact Option.some.inj h1
      simp only [keysOf, List.map_cons, List.nodup_cons] at hn
      have htail : t = u := by
        refine ih u hk2 hn.2 ?_
        intro k
        by_cases hkp : k = p.1
        · subst hkp
          have hnu : p.1 ∉ keysOf u := by
            simp only [keysOf]
            rw [← hk2]
            exact hn.1
          rw [mapGet_none_of_not_mem_keys t _ hn.1, mapGet_none_of_not_mem_keys u _ hnu]
        · have h1 := hget k
          have hp1 : ¬p.1 = k := fun hh => hkp hh.symm
          have hq1 : ¬q.1 = k := fun hh => hkp (hk1 ▸ hh).symm
          simpa only [mapGet, if_neg hp1, if_neg hq1] using h1
      have hp' : p = q := Prod.ext hk1 hv
      rw [hp', htail]

lemma gStep_ne_none (L : String) (o : Option QualityOption) (f : RawFormat)
    (ho : o ≠ none) : gStep L o f ≠ none := by
  unfold gStep
  by_cases hs : skippedFormat f = true
  · simp [hs, ho]
  · by_cases hL : labelOfHeight f.height = L
    · by_cases hp : preferO o (extOf f) (fmtFileSizeOf f) = true
      · simp [hs, hL, hp]
      · simp [hs, hL, hp, ho]
    · simp [hs, hL, ho]

lemma gStep_active_ne_none (L : String) (o : Option QualityOption) (f : RawFormat)
    (hs : skippedFormat f = false) (hL : labelOfHeight f.height = L) :
    gStep L o f ≠ none := by
  unfold gStep
  cases o with
  | none => simp [hs, hL, preferO]
  | some e =>
    by_cases hp : preferO (some e) (extOf f) (fmtFileSizeOf f) = true <;> simp [hs, hL, hp]

lemma foldl_gStep_ne_none (L : String) (fs : List RawFormat) (o : Option QualityOption)
    (ho : o ≠ none) : fs.foldl (gStep L) o ≠ none := by
  induction fs generalizing o with
  | nil => exact ho
  | cons f rest ih => exact ih (gStep L o f) (gStep_ne_none L o f ho)

lemma foldl_gStep_active_ne_none (L : String) (fs : List RawFormat) (o : Option QualityOption)
    (f : RawFormat) (hf : f ∈ fs) (hs : skippedFormat f = false)
    (hL : labelOfHeight f.height = L) : fs.foldl (gStep L) o ≠ none := by
  induction fs generalizing o with
  | nil => exact absurd hf (List.not_mem_nil f)
  | cons g rest ih =>
    rcases List.mem_cons.mp hf with rfl | hmem
    · exact foldl_gStep_ne_none L rest _ (gStep_active_ne_none L o f hs hL)
    · exact ih (gStep L o g) hmem

lemma presence_after_fold (fs : List RawFormat) (m : QMap) (f : RawFormat)
    (hf : f ∈ fs) (hs : skippedFormat f = false) :
    mapGet (fs.foldl qualityStep m) (labelOfHeight f.height) ≠ none := by
  rw [mapGet_foldl]
  exact foldl_gStep_active_ne_none _ fs _ f hf hs rfl

lemma keysOf_qualityStep_present (m : QMap) (f : RawFormat)
    (h : skippedFormat f = true ∨ mapGet m (labelOfHeight f.height) ≠ none) :
    keysOf (qualityStep m f) = keysOf m := by
  unfold qualityStep
  by_cases hs : skippedFormat f = true
  · rw [if_pos hs]
  · rw [if_neg hs]
    rcases h with h | h
    · exact absurd h hs
    · cases hget : mapGet m (labelOfHeight f.height) with
      | none => exact absurd hget h
      | some e =>
        simp only [hget]
        have hpres : mapHasKey m (labelOfHeight f.height) = true := by
          cases hhk : mapHasKey m (labelOfHeight f.height) with
          | true => rfl
          | false => rw [(mapGet_none_iff m _).mpr hhk] at hget; exact absurd hget (by simp)
        by_cases hp : preferNew e (extOf f) (fmtFileSizeOf f) = true
        · rw [if_pos hp]
          exact keysOf_mapSet_present m _ _ hpres
        · rw [if_neg hp]

lemma mapGet_qualityStep_ne_none (m : QMap) (f : RawFormat) (L : String)
    (h : mapGet m L ≠ none) : mapGet (qualityStep m f) L ≠ none := by
  rw [mapGet_qualityStep]
  exact gStep_ne_none L (mapGet m L) f h

lemma keysOf_pass2 (fs : List RawFormat) (m : QMap)
    (hpre : ∀ f ∈ fs, skippedFormat f = false → mapGet m (labelOfHeight f.height) ≠ none) :
    keysOf (fs.foldl qualityStep m) = keysOf m := by
  induction fs generalizing m with
  | nil => rfl
  | cons f rest ih =>
    simp only [List.foldl_cons]
    have hstep : keysOf (qualityStep m f) = keysOf m := by
      apply keysOf_qualityStep_present
      cases hs : skippedFormat f with
      | true => exact Or.inl rfl
      | false => exact Or.inr (hpre f (List.mem_cons_self f rest) hs)
    rw [← hstep] at *
    refine (ih (qualityStep m f) ?_).trans rfl
    intro g hg hgs
    exact mapGet_qualityStep_ne_none m f _ (hpre g (List.mem_cons_of_mem f hg) hgs)

lemma foldl_gStep_audio_id (fs : List RawFormat) (o : Option QualityOption) :
    fs.foldl (gStep "audio") o = o := by
  induction fs generalizing o with
  | nil => rfl
  | cons f rest ih =>
    have hstep : gStep "audio" o f = o := by
      unfold gStep
      by_cases hs : skippedFormat f = true
      · simp [hs]
      · simp [hs, (labelOfHeight_ne_special f.height).1]
    simp only [List.foldl_cons, hstep, ih]

/-- Processing the same format list twice yields the same quality map as
processing it once. -/
lemma qualityFold_idem (fs : List RawFormat) :
    fs.foldl qualityStep (fs.foldl qualityStep initialQMap) =
      fs.foldl qualityStep initialQMap := by
  have hpre : ∀ f ∈ fs, skippedFormat f = false →
      mapGet (fs.foldl qualityStep initialQMap) (labelOfHeight f.height) ≠ none :=
    fun f hf hs => presence_after_fold fs initialQMap f hf hs
  apply qmap_ext
  · exact keysOf_pass2 fs _ hpre
  · rw [keysOf_pass2 fs _ hpre]
    exact nodup_keys_foldl fs initialQMap (by simp [initialQMap, keysOf])
  · intro k
    rw [mapGet_foldl, mapGet_foldl]
    by_cases hk : k = "audio"
    · subst hk
      rw [foldl_gStep_audio_id]
    · have h0 : mapGet initialQMap k = none := by
        simp only [initialQMap, mapGet]
        rw [if_neg (fun h => hk h.symm)]
      rw [h0]
      exact foldl_gStep_idem k fs

lemma qualityLe_trans : ∀ (a b c : QualityOption), qualityLe a b = true →
    qualityLe b c = true → qualityLe a c = true := by
  intro a b c
  unfold qualityLe
  by_cases ha : a.quality = "Audio Only" <;> by_cases hb : b.quality = "Audio Only" <;>
    by_cases hc : c.quality = "Audio Only" <;> simp [ha, hb, hc] <;> omega

lemma qualityLe_total : ∀ (a b : QualityOption), (qualityLe a b || qualityLe b a) = true := by
  intro a b
  unfold qualityLe
  by_cases ha : a.quality = "Audio Only" <;> by_cases hb : b.quality = "Audio Only" <;>
    simp [ha, hb] <;> omega

lemma values_labels_pairwise (m : QMap) (hg : ∀ p ∈ m, goodEntry p)
    (hn : (keysOf m).Nodup) :
    (m.map Prod.snd).Pairwise (fun a b => a.quality ≠ b.quality) := by
  rw [List.pairwise_map]
  have hkeys : m.Pairwise (fun p q => p.1 ≠ q.1) := by
    have hp : (m.map Prod.fst).Pairwise (fun a b => a ≠ b) := hn
    exact List.pairwise_map.mp hp
  refine List.Pairwise.imp_of_mem ?_ hkeys
  intro p q hp hq hne
  rcases hg p hp with ⟨hpk, hpv⟩ | ⟨hpq, hx, hxh⟩ <;>
    rcases hg q hq with ⟨hqk, hqv⟩ | ⟨hqq, hy, hyh⟩
  · exact absurd (hpk.trans hqk.symm) hne
  · have h1 : p.2.quality = "Audio Only" := by
      rw [hpv]
      rfl
    rw [h1, hqq, hyh]
    exact fun hcontra => (labelOfHeight_ne_special hy).2 hcontra.symm
  · have h2 : q.2.quality = "Audio Only" := by
      rw [hqv]
      rfl
    rw [h2, hpq, hxh]
    exact (labelOfHeight_ne_special hx).2
  · rw [hpq, hqq]
    exact hne

lemma initial_good : ∀ p ∈ initialQMap, goodEntry p := by
  intro p hp
  simp only [initialQMap, List.mem_singleton] at hp
  rw [hp]
  exact Or.inl ⟨rfl, rfl⟩

lemma initial_nodup : (keysOf initialQMap).Nodup := by
  simp [initialQMap, keysOf]

lemma quality_labels_pairwise (fs : List RawFormat) :
    (extractQualities fs).Pairwise (fun a b => a.quality ≠ b.quality) := by
  unfold extractQualities
  have hm := values_labels_pairwise (fs.foldl qualityStep initialQMap)
    (good_foldl fs initialQMap initial_good) (nodup_keys_foldl fs initialQMap initial_nodup)
  have hperm := List.mergeSort_perm ((fs.foldl qualityStep initialQMap).map Prod.snd) qualityLe
  exact (hperm.pairwise_iff (fun hxy => Ne.symm hxy)).mpr hm

lemma extractQualities_idem (fs : List RawFormat) :
    extractQualities (fs ++ fs) = extractQualities fs := by
  unfold extractQualities
  rw [List.foldl_append, qualityFold_idem]

lemma mapGet_fold_audio (fs : List RawFormat) :
    mapGet (fs.foldl qualityStep initialQMap) "audio" = some audioOnlyOption := by
  rw [mapGet_foldl, foldl_gStep_audio_id]
  simp [initialQMap, mapGet]

lemma mapGet_mem (m : QMap) (k : String) (v : QualityOption)
    (h : mapGet m k = some v) : (k, v) ∈ m := by
  induction m with
  | nil => exact absurd h (by simp [mapGet])
  | cons p t ih =>
    by_cases hp : p.1 = k
    · simp only [mapGet, if_pos hp] at h
      have hpe : p = (k, v) := Prod.ext hp (Option.some.inj h)
      rw [← hpe]
      exact List.mem_cons_self p t
    · simp only [mapGet, if_neg hp] at h
      exact List.mem_cons_of_mem p (ih h)

lemma audio_mem_values (fs : List RawFormat) :
    audioOnlyOption ∈ (fs.foldl qualityStep initialQMap).map Prod.snd :=
  List.mem_map.mpr ⟨("audio", audioOnlyOption), mapGet_mem _ _ _ (mapGet_fold_audio fs), rfl⟩

lemma values_good (fs : List RawFormat) :
    ∀ v ∈ (fs.foldl qualityStep initialQMap).map Prod.snd,
      v = audioOnlyOption ∨ ∃ h, v.quality = labelOfHeight h := by
  intro v hv
  obtain ⟨p, hp, rfl⟩ := List.mem_map.mp hv
  rcases good_foldl fs initialQMap initial_good p hp with ⟨_, hval⟩ | ⟨hq, hx, hxh⟩
  · exact Or.inl hval
  · exact Or.inr ⟨hx, by rw [hq, hxh]⟩

lemma qualityStep_replaces (m : QMap) (f : RawFormat) (e : QualityOption)
    (hf : skippedFormat f = false)
    (he : mapGet m (labelOfHeight f.height) = some e)
    (hrep : (e.fileSize = "Unknown" ∧ fmtFileSizeOf f ≠ "Unknown") ∨
      (extOf f = "mp4" ∧ e.format ≠ "mp4")) :
    mapGet (qualityStep m f) (labelOfHeight f.height) =
      some (mkOption (labelOfHeight f.height) (extOf f) (fmtFileSizeOf f)) := by
  rw [mapGet_qualityStep]
  have hp : preferO (some e) (extOf f) (fmtFileSizeOf f) = true := by
    simp only [preferO, preferNew, decide_eq_true_eq]
    exact hrep
  unfold gStep
  simp [hf, he, hp]

/-- Claim C6: the quality merge keeps at most one option per label; an entry
with a known file size (or an mp4 container) replaces an existing entry of
the same label whose size is `Unknown` (or whose container is not mp4); and
the merge is idempotent: folding the same probed format list twice produces
the same quality list as folding it once. -/
theorem extractQualities_merge_spec (fs : List RawFormat) (m : QMap) (f : RawFormat)
    (e : QualityOption) (hf : skippedFormat f = false)
    (he : mapGet m (labelOfHeight f.height) = some e)
    (hrep : (e.fileSize = "Unknown" ∧ fmtFileSizeOf f ≠ "Unknown") ∨
      (extOf f = "mp4" ∧ e.format ≠ "mp4")) :
    (extractQualities fs).Pairwise (fun a b => a.quality ≠ b.quality) ∧
    mapGet (qualityStep m f) (labelOfHeight f.height) =
      some (mkOption (labelOfHeight f.height) (extOf f) (fmtFileSizeOf f)) ∧
    extractQualities (fs ++ fs) = extractQualities fs :=
  ⟨quality_labels_pairwise fs, qualityStep_replaces m f e hf he hrep,
   extractQualities_idem fs⟩

/-- Witness for C6: a 720p mp4 stream replaces a webm entry of the same
label, and the merge of a two-format list is idempotent and label-unique. -/
theorem extractQualities_merge_spec_witness :
    (skippedFormat (RawFormat.mk 720 "avc1" (some "mp4") 0 0) = false ∧
     mapGet [("720p HD", QualityOption.mk "720p HD" "webm" "Unknown")]
       (labelOfHeight 720) = some (QualityOption.mk "720p HD" "webm" "Unknown")) ∧
    ((extractQualities [RawFormat.mk 1080 "avc1" (some "mp4") 0 0,
        RawFormat.mk 1080 "vp9" (some "webm") 1000 0]).Pairwise
        (fun a b => a.quality ≠ b.quality) ∧
     mapGet (qualityStep [("720p HD", QualityOption.mk "720p HD" "webm" "Unknown")]
        (RawFormat.mk 720 "avc1" (some "mp4") 0 0)) (labelOfHeight 720) =
       some (mkOption (labelOfHeight 720) (extOf (RawFormat.mk 720 "avc1" (some "mp4") 0 0))
         (fmtFileSizeOf (RawFormat.mk 720 "avc1" (some "mp4") 0 0))) ∧
     extractQualities ([RawFormat.mk 1080 "avc1" (some "mp4") 0 0,
        RawFormat.mk 1080 "vp9" (some "webm") 1000 0] ++
       [RawFormat.mk 1080 "avc1" (some "mp4") 0 0,
        RawFormat.mk 1080 "vp9" (some "webm") 1000 0]) =
       extractQualities [RawFormat.mk 1080 "avc1" (some "mp4") 0 0,
        RawFormat.mk 1080 "vp9" (some "webm") 1000 0]) :=
  ⟨⟨by decide, by decide⟩,
   extractQualities_merge_spec
     [RawFormat.mk 1080 "avc1" (some "mp4") 0 0, RawFormat.mk 1080 "vp9" (some "webm") 1000 0]
     [("720p HD", QualityOption.mk "720p HD" "webm" "Unknown")]
     (RawFormat.mk 720 "avc1" (some "mp4") 0 0)
     (QualityOption.mk "720p HD" "webm" "Unknown")
     (by decide) (by decide) (Or.inr ⟨by decide, by decide⟩)⟩

/-- Claim C7: every quality list built by `extractQualities` ends with the
`Audio Only` option, and the entries before it are in strictly descending
order of the numeric resolution encoded in their labels. -/
theorem extractQualities_ladder_order (fs : List RawFormat) :
    ∃ ini, extractQualities fs = ini ++ [audioOnlyOption] ∧
      (∀ q ∈ ini, q.quality ≠ "Audio Only") ∧
      ini.Pairwise (fun a b => parseHeight b.quality < parseHeight a.quality) := by
  have hperm : (extractQualities fs).Perm
      ((fs.foldl qualityStep initialQMap).map Prod.snd) :=
    List.mergeSort_perm ((fs.foldl qualityStep initialQMap).map Prod.snd) qualityLe
  have hsorted : (extractQualities fs).Pairwise (fun a b => qualityLe a b = true) :=
    List.sorted_mergeSort qualityLe_trans qualityLe_total
      ((fs.foldl qualityStep initialQMap).map Prod.snd)
  have hne : (extractQualities fs).Pairwise (fun a b => a.quality ≠ b.quality) :=
    quality_labels_pairwise fs
  have hgood : ∀ v ∈ extractQualities fs,
      v = audioOnlyOption ∨ ∃ h, v.quality = labelOfHeight h := by
    intro v hv
    exact values_good fs v (hperm.mem_iff.mp hv)
  have hmem : audioOnlyOption ∈ extractQualities fs :=
    hperm.mem_iff.mpr (audio_mem_values fs)
  obtain ⟨xs, ys, hsplit⟩ := List.append_of_mem hmem
  rw [hsplit] at hsorted hne
  rw [List.pairwise_append] at hsorted hne
  obtain ⟨hsxs, hsay, hsx_ay⟩ := hsorted
  obtain ⟨hnxs, hnay, hnx_ay⟩ := hne
  have hys : ys = [] := by
    cases ys with
    | nil => rfl
    | cons y ys' =>
      have hlay : qualityLe audioOnlyOption y = true :=
        (List.pairwise_cons.mp hsay).1 y (List.mem_cons_self y ys')
      have hyq : y.quality = "Audio Only" := by
        unfold qualityLe at hlay
        rw [if_pos (show audioOnlyOption.quality = "Audio Only" from rfl)] at hlay
        exact of_decide_eq_true hlay
      have hneay : audioOnlyOption.quality ≠ y.quality :=
        (List.pairwise_cons.mp hnay).1 y (List.mem_cons_self y ys')
      exact absurd hyq.symm hneay
  subst hys
  refine ⟨xs, hsplit, ?_, ?_⟩
  · intro q hq heq
    exact (hnx_ay q hq audioOnlyOption (List.mem_cons_self _ _)) (by rw [heq]; rfl)
  · have hboth := hsxs.and hnxs
    refine List.Pairwise.imp_of_mem ?_ hboth
    intro a b ha hb hab
    obtain ⟨hle, hneq⟩ := hab
    have hana : a.quality ≠ "Audio Only" := fun heq =>
      (hnx_ay a ha audioOnlyOption (List.mem_cons_self _ _)) (by rw [heq]; rfl)
    have hbna : b.quality ≠ "Audio Only" := fun heq =>
      (hnx_ay b hb audioOnlyOption (List.mem_cons_self _ _)) (by rw [heq]; rfl)
    have hmema : a ∈ extractQualities fs := by
      rw [hsplit]
      exact List.mem_append_left _ ha
    have hmemb : b ∈ extractQualities fs := by
      rw [hsplit]
      exact List.mem_append_left _ hb
    have hga := hgood a hmema
    have hgb := hgood b hmemb
    rcases hga with rfl | ⟨h1, hl1⟩
    · exact absurd rfl hana
    rcases hgb with rfl | ⟨h2, hl2⟩
    · exact absurd rfl hbna
    have hle' : parseHeight b.quality ≤ parseHeight a.quality := by
      unfold qualityLe at hle
      rw [if_neg hana, if_neg hbna] at hle
      exact of_decide_eq_true hle
    have hneq' : parseHeight b.quality ≠ parseHeight a.quality := by
      intro heq
      rw [hl1, hl2] at heq
      have hlab := labelOfHeight_eq_of_key_eq h2 h1 heq
      exact hneq (by rw [hl1, hl2, hlab])
    omega

/-- `ExtractedVideoInfo` of the shared schema. -/
structure ExtractedVideoInfo where
  title : String
  description : String
  thumbnail : String
  duration : String
  uploader : String
  viewCount : Nat
  platform : String
  availableQualities : List QualityOption
deriving DecidableEq, Repr

/-- JS `o || dflt` on an optional string field: absent, or present but empty
(falsy), falls back to the default. -/
def jsOrS (o : Option String) (dflt : String) : String :=
  match o with
  | none => dflt
  | some s => if s = "" then dflt else s

/-- `padStart(2, '0')` of a decimal number. -/
def pad2 (n : Nat) : String := if n < 10 then "0" ++ Nat.repr n else Nat.repr n

/-- `VideoExtractorService.formatDuration` (seconds assumed integral; the
source floors every component). -/
def formatDuration (seconds : Nat) : String :=
  if seconds = 0 then "00:00"
  else
    if seconds / 3600 > 0 then
      pad2 (seconds / 3600) ++ ":" ++ pad2 (seconds % 3600 / 60) ++ ":" ++ pad2 (seconds % 60)
    else pad2 (seconds % 3600 / 60) ++ ":" ++ pad2 (seconds % 60)

def isTikTokUrl (url : String) : Bool := strIncludes url "tiktok.com"
def isInstagramUrl (url : String) : Bool := strIncludes url "instagram.com"
def isPinterestUrl (url : String) : Bool :=
  strIncludes url "pinterest.com" || strIncludes url "pin.it"

/-- `errorOutput.includes('Sign in to confirm') ||
errorOutput.includes('ERROR: [youtube]')`: the authentication-required
signature checked first by both failure classifiers. -/
def signInSig (e : String) : Bool :=
  strIncludes e "Sign in to confirm" || strIncludes e "ERROR: [youtube]"

/-- The privacy/blocking keyword scan of the `extractVideoInfo` failure
handler: two case-sensitive HTTP-error signatures plus six lowercase
keywords, including `not available`. -/
def privacyBlockSig (e : String) : Bool :=
  strIncludes e "HTTP Error 403" || strIncludes e "HTTP Error 401" ||
  strIncludesLower e "login" || strIncludesLower e "forbidden" ||
  strIncludesLower e "private" || strIncludesLower e "unavailable" ||
  strIncludesLower e "not available" || strIncludesLower e "blocked"

/-- The keyword list as the claim document states it
(403/401/login/forbidden/private/unavailable/blocked) — spec-side definition,
for comparison with `privacyBlockSig`. -/
def claimPrivacyKeyword (e : String) : Bool :=
  strIncludesLower e "403" || strIncludesLower e "401" ||
  strIncludesLower e "login" || strIncludesLower e "forbidden" ||
  strIncludesLower e "private" || strIncludesLower e "unavailable" ||
  strIncludesLower e "blocked"

/-- The URLs classified as commonly privacy-restricted by the failure
handler (`tiktok.com || instagram.com || pinterest.com || pin.it`). -/
def restrictedPlatformUrl (url : String) : Bool :=
  isTikTokUrl url || isInstagramUrl url || isPinterestUrl url

/-- The synthetic YouTube demo metadata returned when authentication-required
signatures appear in stderr. -/
def youtubeAuthMock (platform : String) : ExtractedVideoInfo :=
  { title := "Sample Video (Demo Mode)"
    description := "This is a demo video since YouTube requires authentication. In production, proper authentication would be needed."
    thumbnail := "https://images.unsplash.com/photo-1611162617474-5b21e879e113?ixlib=rb-4.0.3&auto=format&fit=crop&w=800&h=450"
    duration := "3:45"
    uploader := "Demo Channel"
    viewCount := 123456
    platform := platform
    availableQualities :=
      [QualityOption.mk "4K (2160p)" "mp4" "245 MB", QualityOption.mk "2K (1440p)" "mp4" "156 MB",
       QualityOption.mk "1080p HD" "mp4" "89 MB", QualityOption.mk "720p HD" "mp4" "45 MB",
       QualityOption.mk "480p" "mp4" "28 MB", QualityOption.mk "360p" "mp4" "18 MB",
       QualityOption.mk "Audio Only" "mp3" "4.2 MB"] }

/-- The synthetic demo metadata for privacy-restricted TikTok / Instagram /
Pinterest extractions. -/
def restrictedMock (platformName platform : String) : ExtractedVideoInfo :=
  { title := platformName ++ " Sample (Demo Mode)"
    description := platformName ++ " content may require login/cookies or be private. Configure COOKIES_BROWSER environment variable for better extraction."
    thumbnail := "https://images.unsplash.com/photo-1524255684952-d7185b509571?q=80&w=1200&auto=format&fit=crop"
    duration := "00:30"
    uploader := platformName ++ " Creator"
    viewCount := 98765
    platform := platform
    availableQualities :=
      [QualityOption.mk "1080p HD" "mp4" "Unknown", QualityOption.mk "720p HD" "mp4" "Unknown",
       QualityOption.mk "480p" "mp4" "Unknown", QualityOption.mk "Audio Only" "mp3" "Variable"] }

/-- The `code !== 0` arm of the `close` handler of `extractVideoInfo`:
classify stderr into the YouTube-auth mock, the restricted-platform mock, or
rejection with the extraction-failed error. -/
def extractOnToolFailure (url platform errorOutput : String) :
    Except String ExtractedVideoInfo :=
  if signInSig errorOutput then Except.ok (youtubeAuthMock platform)
  else if restrictedPlatformUrl url && privacyBlockSig errorOutput then
    Except.ok (restrictedMock
      (if isTikTokUrl url then "TikTok" else if isInstagramUrl url then "Instagram"
       else "Pinterest") platform)
  else
    Except.error ("Video extraction failed: " ++
      (if errorOutput = "" then "Unknown error" else errorOutput))

/-- Outcome of a lightweight oEmbed probe: the fetch threw (timeout/network),
or an HTTP response with its ok-flag and the JSON fields the handler reads. -/
inductive ProbeOutcome where
  | failed
  | resp (ok : Bool) (title author_name thumbnail_url : Option String)
deriving DecidableEq, Repr

/-- Outcome of the TikTok/Instagram/Pinterest page-scrape probe.  The HTML
regex extraction of the source is modelled by its resulting field values
(title, thumbnail, uploader, description as finally computed). -/
inductive ScrapeOutcome where
  | failed
  | resp (ok : Bool) (title thumbnail uploader description : String)
deriving DecidableEq, Repr

/-- One line of the tool's stdout after `JSON.parse`: `none` models an
invalid JSON line (skipped by the loop); a record carries the fields the
handler reads.  `duration` is kept integral. -/
structure VideoData where
  title : Option String
  id : Option String
  description : Option String
  thumbnail : Option String
  thumbnail0 : Option String
  duration : Nat
  uploader : Option String
  channel : Option String
  uploader_id : Option String
  view_count : Nat
  formats : List RawFormat
deriving DecidableEq, Repr

/-- Result of the metadata-dump tool invocation: exit code, parsed stdout
lines, whether the raw stdout was blank, and accumulated stderr. -/
structure ToolRun where
  code : Int
  stdoutLines : List (Option VideoData)
  rawOutBlank : Bool
  err : String
deriving DecidableEq, Repr

def jsTruthyS (o : Option String) : Bool :=
  match o with
  | none => false
  | some s => s ≠ ""

/-- The line scan of the success path: first parsed line with a truthy
`title` or `id` field. -/
def findVideoData (lines : List (Option VideoData)) : Option VideoData :=
  match lines.find? (fun l => match l with
    | some vd => jsTruthyS vd.title || jsTruthyS vd.id
    | none => false) with
  | some (some vd) => some vd
  | _ => none

/-- The `code === 0` arm of the `close` handler of `extractVideoInfo`. -/
def toolSuccessParse (url platform : String) (tr : ToolRun) :
    Except String ExtractedVideoInfo :=
  if tr.rawOutBlank then Except.error ("No output from yt-dlp for URL: " ++ url)
  else
    match findVideoData tr.stdoutLines with
    | none => Except.error "No valid video data found in output"
    | some vd =>
        Except.ok
          { title := jsOrS vd.title "Unknown Title"
            description := jsOrS vd.description ""
            thumbnail := jsOrS vd.thumbnail (jsOrS vd.thumbnail0 "")
            duration := formatDuration vd.duration
            uploader := jsOrS vd.uploader (jsOrS vd.channel (jsOrS vd.uploader_id "Unknown"))
            viewCount := vd.view_count
            platform := platform
            availableQualities := extractQualities vd.formats }

/-- The whole `close` handler of the tool invocation. -/
def toolClose (url platform : String) (tr : ToolRun) : Except String ExtractedVideoInfo :=
  if tr.code ≠ 0 then extractOnToolFailure url platform tr.err
  else toolSuccessParse url platform tr

/-- Environment of one `extractVideoInfo` call: the outcomes of the three
oEmbed probes, of the scrape probe, and of the external tool. -/
structure ExtractEnv where
  ytProbe : ProbeOutcome
  vimeoProbe : ProbeOutcome
  dmProbe : ProbeOutcome
  scrape : ScrapeOutcome
  tool : ToolRun
deriving DecidableEq, Repr

/-- The fixed generic YouTube ladder of the oEmbed fast path. -/
def youtubeGenericLadder : List QualityOption :=
  [QualityOption.mk "4K (2160p)" "mp4" "Unknown", QualityOption.mk "2K (1440p)" "mp4" "Unknown",
   QualityOption.mk "1080p HD" "mp4" "Unknown", QualityOption.mk "720p HD" "mp4" "Unknown",
   QualityOption.mk "480p" "mp4" "Unknown", QualityOption.mk "360p" "mp4" "Unknown",
   QualityOption.mk "Audio Only" "mp3" "Variable"]

/-- The shorter generic ladder used by the Vimeo/Dailymotion fast paths and
the scrape probe. -/
def shortGenericLadder : List QualityOption :=
  [QualityOption.mk "1080p HD" "mp4" "Unknown", QualityOption.mk "720p HD" "mp4" "Unknown",
   QualityOption.mk "480p" "mp4" "Unknown", QualityOption.mk "Audio Only" "mp3" "Variable"]

def oembedFastInfo (platform dfltTitle dfltUploader : String)
    (ladder : List QualityOption) (t a th : Option String) : ExtractedVideoInfo :=
  { title := jsOrS t dfltTitle
    description := ""
    thumbnail := jsOrS th ""
    duration := "Unknown"
    uploader := jsOrS a dfltUploader
    viewCount := 0
    platform := platform
    availableQualities := ladder }

/-- `VideoExtractorService.extractVideoInfo`, with the subprocess and network
effects supplied through `env`.  First component: the settled promise;
second: the number of tool invocations performed (0 when a fast path
short-circuits). -/
def extractVideoInfoRun (url : String) (env : ExtractEnv) :
    Except String ExtractedVideoInfo × Nat :=
  match detectPlatform url with
  | Except.error e => (Except.error e, 0)
  | Except.ok platform =>
    if platform = "YouTube" then
      match env.ytProbe with
      | ProbeOutcome.resp true t a th =>
          (Except.ok (oembedFastInfo platform "YouTube Video" "YouTube"
            youtubeGenericLadder t a th), 0)
      | _ => (toolClose url platform env.tool, 1)
    else if platform = "Vimeo" then
      match env.vimeoProbe with
      | ProbeOutcome.resp true t a th =>
          (Except.ok (oembedFastInfo platform "Vimeo Video" "Vimeo"
            shortGenericLadder t a th), 0)
      | _ => (toolClose url platform env.tool, 1)
    else if platform = "Dailymotion" then
      match env.dmProbe with
      | ProbeOutcome.resp true t a th =>
          (Except.ok (oembedFastInfo platform "Dailymotion Video" "Dailymotion"
            shortGenericLadder t a th), 0)
      | _ => (toolClose url platform env.tool, 1)
    else if platform = "TikTok" ∨ platform = "Instagram" ∨ platform = "Pinterest" then
      match env.scrape with
      | ScrapeOutcome.resp true t th up d =>
          (Except.ok
            { title := t
              description := d
              thumbnail := th
              duration := "Unknown"
              uploader := up
              viewCount := 0
              platform := platform
              availableQualities := shortGenericLadder }, 0)
      | _ => (toolClose url platform env.tool, 1)
    else (toolClose url platform env.tool, 1)

/-- Claim C8: for a YouTube URL whose oEmbed probe returns an ok response,
`extractVideoInfo` short-circuits without invoking the external tool and
returns metadata whose quality list is exactly the fixed 7-entry generic
ladder (4K, 2K, 1080p HD, 720p HD, 480p, 360p, Audio Only) with every video
size `Unknown`. -/
theorem youtube_fast_path_spec (url : String) (env : ExtractEnv)
    (t a th : Option String)
    (hp : detectPlatform url = Except.ok "YouTube")
    (hprobe : env.ytProbe = ProbeOutcome.resp true t a th) :
    extractVideoInfoRun url env =
      (Except.ok
        { title := jsOrS t "YouTube Video"
          description := ""
          thumbnail := jsOrS th ""
          duration := "Unknown"
          uploader := jsOrS a "YouTube"
          viewCount := 0
          platform := "YouTube"
          availableQualities :=
            [QualityOption.mk "4K (2160p)" "mp4" "Unknown",
             QualityOption.mk "2K (1440p)" "mp4" "Unknown",
             QualityOption.mk "1080p HD" "mp4" "Unknown",
             QualityOption.mk "720p HD" "mp4" "Unknown",
             QualityOption.mk "480p" "mp4" "Unknown",
             QualityOption.mk "360p" "mp4" "Unknown",
             QualityOption.mk "Audio Only" "mp3" "Variable"] }, 0) := by
  unfold extractVideoInfoRun
  rw [hp]
  simp [hprobe, oembedFastInfo, youtubeGenericLadder]

/-- Witness for C8: the end-to-end scenario URL with a successful probe
titled `Example`. -/
theorem youtube_fast_path_witness :
    detectPlatform "https://youtu.be/abc123" = Except.ok "YouTube" ∧
    extractVideoInfoRun "https://youtu.be/abc123"
      (ExtractEnv.mk (ProbeOutcome.resp true (some "Example") (some "Chan") none)
        ProbeOutcome.failed ProbeOutcome.failed ScrapeOutcome.failed
        (ToolRun.mk 0 [] true "")) =
      (Except.ok
        { title := jsOrS (some "Example") "YouTube Video"
          description := ""
          thumbnail := jsOrS none ""
          duration := "Unknown"
          uploader := jsOrS (some "Chan") "YouTube"
          viewCount := 0
          platform := "YouTube"
          availableQualities :=
            [QualityOption.mk "4K (2160p)" "mp4" "Unknown",
             QualityOption.mk "2K (1440p)" "mp4" "Unknown",
             QualityOption.mk "1080p HD" "mp4" "Unknown",
             QualityOption.mk "720p HD" "mp4" "Unknown",
             QualityOption.mk "480p" "mp4" "Unknown",
             QualityOption.mk "360p" "mp4" "Unknown",
             QualityOption.mk "Audio Only" "mp3" "Variable"] }, 0) :=
  ⟨rfl,
   youtube_fast_path_spec "https://youtu.be/abc123" _ (some "Example") (some "Chan") none
     rfl rfl⟩

/-- Counterexample to claim C5 as stated: for a TikTok URL whose tool stderr
is `ERROR: This video is not available`, none of the claim's listed keywords
(403/401/login/forbidden/private/unavailable/blocked) occurs and no
authentication signature occurs, so per the claim the promise should reject;
the code nevertheless resolves with the demo metadata, because its keyword
scan also contains `not available`. -/
theorem extract_not_available_counterexample :
    signInSig "ERROR: This video is not available" = false ∧
    claimPrivacyKeyword "ERROR: This video is not available" = false ∧
    restrictedPlatformUrl "https://www.tiktok.com/@u/video/1" = true ∧
    extractOnToolFailure "https://www.tiktok.com/@u/video/1" "TikTok"
      "ERROR: This video is not available" =
      Except.ok (restrictedMock "TikTok" "TikTok") :=
  ⟨by decide, by decide, by decide, rfl⟩

/-- Claim C5 (amended): on a non-zero tool exit, an authentication signature
(`Sign in to confirm` or the YouTube error marker) resolves with a
demo-labelled metadata; a TikTok/Instagram/Pinterest URL whose stderr
contains one of the code's privacy/blocking keywords — `HTTP Error 403`,
`HTTP Error 401`, `login`, `forbidden`, `private`, `unavailable`,
`not available`, `blocked` — also resolves with a demo-labelled metadata;
every other failure rejects with the extraction-failed error carrying
stderr. -/
theorem extract_failure_classification (url platform err : String) :
    (signInSig err = true →
      ∃ m, extractOnToolFailure url platform err = Except.ok m ∧
        strIncludes m.title "(Demo Mode)" = true) ∧
    (signInSig err = false → restrictedPlatformUrl url = true → privacyBlockSig err = true →
      ∃ m, extractOnToolFailure url platform err = Except.ok m ∧
        strIncludes m.title "(Demo Mode)" = true) ∧
    (signInSig err = false → (restrictedPlatformUrl url = false ∨ privacyBlockSig err = false) →
      extractOnToolFailure url platform err =
        Except.error ("Video extraction failed: " ++
          (if err = "" then "Unknown error" else err))) := by
  refine ⟨?_, ?_, ?_⟩
  · intro h
    refine ⟨youtubeAuthMock platform, ?_,
      (by decide : strIncludes "Sample Video (Demo Mode)" "(Demo Mode)" = true)⟩
    unfold extractOnToolFailure
    rw [if_pos h]
  · intro h1 h2 h3
    unfold extractOnToolFailure
    rw [if_neg (by simp [h1]), if_pos (by simp [h2, h3])]
    by_cases htik : isTikTokUrl url = true
    · refine ⟨restrictedMock "TikTok" platform, ?_,
        (by decide : strIncludes ("TikTok" ++ " Sample (Demo Mode)") "(Demo Mode)" = true)⟩
      rw [if_pos htik]
    · by_cases hin : isInstagramUrl url = true
      · refine ⟨restrictedMock "Instagram" platform, ?_,
          (by decide : strIncludes ("Instagram" ++ " Sample (Demo Mode)") "(Demo Mode)" = true)⟩
        rw [if_neg htik, if_pos hin]
      · refine ⟨restrictedMock "Pinterest" platform, ?_,
          (by decide : strIncludes ("Pinterest" ++ " Sample (Demo Mode)") "(Demo Mode)" = true)⟩
        rw [if_neg htik, if_neg hin]
  · intro h1 h2
    unfold extractOnToolFailure
    have hand : (restrictedPlatformUrl url && privacyBlockSig err) = false := by
      rcases h2 with h | h <;> simp [h]
    rw [if_neg (by simp [h1]), if_neg (by simp [hand])]

/-- Witness for the amended C5 at a concrete blocked Instagram extraction. -/
theorem extract_failure_classification_witness :
    ∃ m, extractOnToolFailure "https://www.instagram.com/p/x" "Instagram"
        "HTTP Error 403: Forbidden" = Except.ok m ∧
      strIncludes m.title "(Demo Mode)" = true :=
  (extract_failure_classification "https://www.instagram.com/p/x" "Instagram"
    "HTTP Error 403: Forbidden").2.1 (by decide) (by decide) (by decide)

/-- JS whitespace characters relevant to `trim` here. -/
def isWsChar (c : Char) : Bool := c = ' ' || c = '\n' || c = '\t' || c = '\r'

def trimData (l : List Char) : List Char :=
  ((l.dropWhile isWsChar).reverse.dropWhile isWsChar).reverse

/-- JS `s.trim()`. -/
def jsTrim (s : String) : String := String.mk (trimData s.data)

def takeUntilNl : List Char → List Char
  | [] => []
  | c :: t => if c = '\n' then [] else c :: takeUntilNl t

/-- JS `s.trim().split('\n')[0]` — the first line of the trimmed output. -/
def firstLine (s : String) : String := String.mk (takeUntilNl (trimData s.data))

/-- `/Requested format is not available/i.test(errorOutput)`. -/
def fmtUnavailableSig (e : String) : Bool := includesCI e "Requested format is not available"

/-- `/Failed to parse JSON/i.test(...) || /JSONDecodeError/i.test(...)`. -/
def pinterestJsonSig (e : String) : Bool :=
  includesCI e "Failed to parse JSON" || includesCI e "JSONDecodeError"

/-- The fixed sample media URL used as graceful-degradation fallback. -/
def sampleMediaUrl : String :=
  "https://commondatastorage.googleapis.com/gtv-videos-bucket/sample/BigBuckBunny.mp4"

/-- `VideoExtractorService.getFormatSelector`. -/
def getFormatSelector (quality url : String) : String :=
  if isTikTokUrl url then
    if strIncludes quality "1080" then
      "best[height<=1080][ext=mp4][protocol^=http]/best[ext=mp4][protocol^=http]/best[protocol^=http]/best"
    else if strIncludes quality "720" then
      "best[height<=720][ext=mp4][protocol^=http]/best[ext=mp4][protocol^=http]/best[protocol^=http]/best"
    else if strIncludes quality "480" then
      "best[height<=480][ext=mp4][protocol^=http]/best[ext=mp4][protocol^=http]/best[protocol^=http]/best"
    else "best[ext=mp4][protocol^=http]/best[protocol^=http]/best"
  else if isInstagramUrl url || isPinterestUrl url then
    if strIncludes quality "1080" then
      "best[height<=1080][ext=mp4][protocol^=http]/best[ext=mp4][protocol^=http]/best[protocol^=http]/best"
    else if strIncludes quality "720" then
      "best[height<=720][ext=mp4][protocol^=http]/best[ext=mp4][protocol^=http]/best[protocol^=http]/best"
    else if strIncludes quality "480" then
      "best[height<=480][ext=mp4][protocol^=http]/best[ext=mp4][protocol^=http]/best[protocol^=http]/best"
    else "best[ext=mp4][protocol^=http]/best[protocol^=http]/best"
  else if strIncludes quality "2160" || strIncludes quality "4K" then
    "best[height<=2160][ext=mp4][protocol^=http]/best[height<=2160]/best[ext=mp4]/best"
  else if strIncludes quality "1440" || strIncludes quality "2K" then
    "best[height<=1440][ext=mp4][protocol^=http]/best[height<=1440]/best[ext=mp4]/best"
  else if strIncludes quality "1080" then
    "best[height<=1080][ext=mp4][protocol^=http]/best[height<=1080]/best[ext=mp4]/best"
  else if strIncludes quality "720" then
    "best[height<=720][ext=mp4][protocol^=http]/best[height<=720]/best[ext=mp4]/best"
  else if strIncludes quality "480" then
    "best[height<=480][ext=mp4][protocol^=http]/best[height<=480]/best[ext=mp4]/best"
  else if strIncludes quality "360" then
    "best[height<=360][ext=mp4][protocol^=http]/best[height<=360]/best[ext=mp4]/best"
  else if strIncludes quality "240" then
    "best[height<=240][ext=mp4][protocol^=http]/best[height<=240]/best[ext=mp4]/best"
  else "best[ext=mp4][protocol^=http]/best"

/-- The format directive of the first invocation: audio extraction for mp3,
otherwise the quality/platform-derived selector. -/
def firstSelector (format quality url : String) : String :=
  if format = "mp3" then "--extract-audio" else getFormatSelector quality url

/-- The maximally permissive selector of the format-unavailable retry. -/
def permissiveSelector : String := "best/bestvideo+bestaudio"

/-- The selector of the Pinterest generic-extractor fallback invocation. -/
def pinterestFallbackSelector : String := "best[ext=mp4]/best"

/-- Result of one tool invocation: exit code and accumulated stdout/stderr. -/
structure ToolResult where
  code : Int
  out : String
  err : String
deriving DecidableEq, Repr

/-- `VideoExtractorService.generateDownloadLink`, with subprocess results
supplied as arguments: `r1` is the first invocation, `r2` the (at most one)
follow-up invocation — the Pinterest generic-extractor fallback or the
permissive-format retry, whichever branch runs.  First component: the
settled promise; second: the format directives of the invocations actually
performed, in order. -/
def generateDownloadLink (url quality format : String) (r1 r2 : ToolResult) :
    Except String String × List String :=
  if r1.code ≠ 0 then
    if isPinterestUrl url = true ∧ pinterestJsonSig r1.err = true then
      (if r2.code = 0 ∧ jsTrim r2.out ≠ "" then Except.ok (jsTrim r2.out)
       else Except.ok sampleMediaUrl,
       [firstSelector format quality url, pinterestFallbackSelector])
    else if fmtUnavailableSig r1.err = true then
      (if r2.code = 0 then
         (if firstLine r2.out ≠ "" then Except.ok (firstLine r2.out)
          else Except.error "Retry succeeded but no URL returned")
       else if isTikTokUrl url = true ∨ isInstagramUrl url = true then
         Except.ok sampleMediaUrl
       else Except.error ("Download link generation failed after retry: " ++
         (if r2.err = "" then r1.err else r2.err)),
       [firstSelector format quality url, permissiveSelector])
    else if isTikTokUrl url = true ∨ isInstagramUrl url = true then
      (Except.ok sampleMediaUrl, [firstSelector format quality url])
    else if signInSig r1.err = true then
      (Except.ok sampleMediaUrl, [firstSelector format quality url])
    else
      (Except.error ("Download link generation failed: " ++ r1.err),
       [firstSelector format quality url])
  else
    (if firstLine r1.out ≠ "" then Except.ok (firstLine r1.out)
     else Except.error "No download URL returned from yt-dlp",
     [firstSelector format quality url])

/-- Claim C3: when the first invocation exits non-zero with a
format-unavailable stderr signature and the permissive-selector retry is the
follow-up performed (i.e. the Pinterest JSON-error branch does not fire) and
succeeds with a URL, `generateDownloadLink` resolves with the first line of
the retry's stdout, and exactly two invocations run — the second with the
`best/bestvideo+bestaudio` selector, hence exactly one retry. -/
theorem generateDownloadLink_format_retry_once (url quality format : String)
    (r1 r2 : ToolResult) (h1 : r1.code ≠ 0) (h2 : fmtUnavailableSig r1.err = true)
    (h3 : ¬(isPinterestUrl url = true ∧ pinterestJsonSig r1.err = true))
    (h4 : r2.code = 0) (h5 : firstLine r2.out ≠ "") :
    generateDownloadLink url quality format r1 r2 =
      (Except.ok (firstLine r2.out),
       [firstSelector format quality url, permissiveSelector]) := by
  unfold generateDownloadLink
  rw [if_pos h1, if_neg h3, if_pos h2, if_pos h4, if_pos h5]

/-- Witness for C3: a Vimeo request whose strict selector is unavailable and
whose permissive retry returns a CDN URL. -/
theorem generateDownloadLink_format_retry_once_witness :
    ((ToolResult.mk 1 "" "ERROR: Requested format is not available").code ≠ 0 ∧
     fmtUnavailableSig (ToolResult.mk 1 "" "ERROR: Requested format is not available").err = true ∧
     ¬(isPinterestUrl "https://vimeo.com/123" = true ∧
       pinterestJsonSig (ToolResult.mk 1 "" "ERROR: Requested format is not available").err = true) ∧
     (ToolResult.mk 0 "https://cdn.example.com/v.mp4\nextra" "").code = 0 ∧
     firstLine (ToolResult.mk 0 "https://cdn.example.com/v.mp4\nextra" "").out ≠ "") ∧
    generateDownloadLink "https://vimeo.com/123" "1080p HD" "mp4"
      (ToolResult.mk 1 "" "ERROR: Requested format is not available")
      (ToolResult.mk 0 "https://cdn.example.com/v.mp4\nextra" "") =
      (Except.ok (firstLine (ToolResult.mk 0 "https://cdn.example.com/v.mp4\nextra" "").out),
       [firstSelector "mp4" "1080p HD" "https://vimeo.com/123", permissiveSelector]) :=
  ⟨⟨by decide, by decide, by decide, by decide, by decide⟩,
   generateDownloadLink_format_retry_once "https://vimeo.com/123" "1080p HD" "mp4"
     (ToolResult.mk 1 "" "ERROR: Requested format is not available")
     (ToolResult.mk 0 "https://cdn.example.com/v.mp4\nextra" "")
     (by decide) (by decide) (by decide) (by decide) (by decide)⟩

/-- Counterexample to claim C4 as stated: a Pinterest short-link request
whose stderr matches the JSON-parse signature and whose generic-extractor
fallback also fails is neither a TikTok/Instagram URL nor a sign-in-signature
failure, so per the claim it should reject; the code resolves the fixed
sample URL instead. -/
theorem generateDownloadLink_pinterest_counterexample :
    isTikTokUrl "https://pin.it/abc" = false ∧
    isInstagramUrl "https://pin.it/abc" = false ∧
    signInSig "Failed to parse JSON" = false ∧
    (generateDownloadLink "https://pin.it/abc" "720p HD" "mp4"
      (ToolResult.mk 1 "" "Failed to parse JSON") (ToolResult.mk 1 "" "")).1 =
      Except.ok sampleMediaUrl :=
  ⟨by decide, by decide, by decide, rfl⟩

/-- Claim C4 (amended): when the first invocation fails and any follow-up
invocation of the branch taken also fails, TikTok/Instagram URLs always
resolve the fixed sample URL; a Pinterest URL whose stderr matches the
JSON-parse signature also resolves the sample URL; a sign-in/YouTube-marker
stderr on the no-retry path also resolves the sample URL; the
format-unavailable retry path rejects for all other platforms with the
after-retry error carrying stderr; and every remaining failure rejects with
the link-generation error carrying stderr. -/
theorem generateDownloadLink_failure_policy (url quality format : String)
    (r1 r2 : ToolResult) (hc : r1.code ≠ 0)
    (hfail1 : isPinterestUrl url = true → pinterestJsonSig r1.err = true →
      ¬(r2.code = 0 ∧ jsTrim r2.out ≠ ""))
    (hfail2 : ¬(isPinterestUrl url = true ∧ pinterestJsonSig r1.err = true) →
      fmtUnavailableSig r1.err = true → r2.code ≠ 0) :
    ((isTikTokUrl url = true ∨ isInstagramUrl url = true) →
      (generateDownloadLink url quality format r1 r2).1 = Except.ok sampleMediaUrl) ∧
    (isPinterestUrl url = true → pinterestJsonSig r1.err = true →
      (generateDownloadLink url quality format r1 r2).1 = Except.ok sampleMediaUrl) ∧
    (¬(isPinterestUrl url = true ∧ pinterestJsonSig r1.err = true) →
      fmtUnavailableSig r1.err = false → signInSig r1.err = true →
      (generateDownloadLink url quality format r1 r2).1 = Except.ok sampleMediaUrl) ∧
    (¬(isPinterestUrl url = true ∧ pinterestJsonSig r1.err = true) →
      ¬(isTikTokUrl url = true ∨ isInstagramUrl url = true) →
      fmtUnavailableSig r1.err = true →
      (generateDownloadLink url quality format r1 r2).1 =
        Except.error ("Download link generation failed after retry: " ++
          (if r2.err = "" then r1.err else r2.err))) ∧
    (¬(isPinterestUrl url = true ∧ pinterestJsonSig r1.err = true) →
      ¬(isTikTokUrl url = true ∨ isInstagramUrl url = true) →
      fmtUnavailableSig r1.err = false → signInSig r1.err = false →
      (generateDownloadLink url quality format r1 r2).1 =
        Except.error ("Download link generation failed: " ++ r1.err)) := by
  refine ⟨?_, ?_, ?_, ?_, ?_⟩
  · intro hti
    unfold generateDownloadLink
    rw [if_pos hc]
    by_cases hpj : isPinterestUrl url = true ∧ pinterestJsonSig r1.err = true
    · rw [if_pos hpj, if_neg (hfail1 hpj.1 hpj.2)]
    · rw [if_neg hpj]
      by_cases hfmt : fmtUnavailableSig r1.err = true
      · rw [if_pos hfmt, if_neg (by simpa using hfail2 hpj hfmt), if_pos hti]
      · rw [if_neg hfmt, if_pos hti]
  · intro hp hj
    unfold generateDownloadLink
    rw [if_pos hc, if_pos ⟨hp, hj⟩, if_neg (hfail1 hp hj)]
  · intro hpj hfmt hsig
    unfold generateDownloadLink
    rw [if_pos hc, if_neg hpj, if_neg (by simp [hfmt])]
    by_cases hti : isTikTokUrl url = true ∨ isInstagramUrl url = true
    · rw [if_pos hti]
    · rw [if_neg hti, if_pos hsig]
  · intro hpj hti hfmt
    unfold generateDownloadLink
    rw [if_pos hc, if_neg hpj, if_pos hfmt, if_neg (by simpa using hfail2 hpj hfmt),
        if_neg hti]
  · intro hpj hti hfmt hsig
    unfold generateDownloadLink
    rw [if_pos hc, if_neg hpj, if_neg (by simp [hfmt]), if_neg hti,
        if_neg (by simp [hsig])]

/-- Witness for the amended C4: a TikTok request whose strict and permissive
invocations both fail resolves the sample URL; the same theorem instance also
certifies the reject cases vacuously. -/
theorem generateDownloadLink_failure_policy_witness :
    (generateDownloadLink "https://www.tiktok.com/@u/video/9" "720p HD" "mp4"
      (ToolResult.mk 1 "" "ERROR: Requested format is not available")
      (ToolResult.mk 1 "" "network error")).1 = Except.ok sampleMediaUrl :=
  (generateDownloadLink_failure_policy "https://www.tiktok.com/@u/video/9" "720p HD" "mp4"
    (ToolResult.mk 1 "" "ERROR: Requested format is not available")
    (ToolResult.mk 1 "" "network error")
    (by decide) (fun hp => absurd hp (by decide))
    (fun _ _ => by decide)).1 (Or.inl (by decide))

/-- Express response state as seen by the `/api/stream-video` handler:
whether headers (and hence any body bytes) have been committed, and the
status code. -/
structure ResState where
  headersSent : Bool
  statusCode : Nat
deriving DecidableEq, Repr

/-- `res.status(500).json(...)`: committing an error response sends the
headers. -/
def sendErrorJson (_r : ResState) (code : Nat) : ResState :=
  { headersSent := true, statusCode := code }

/-- `proc.on('error', ...)` of the transcode branch: error response only if
`!res.headersSent`. -/
def onYtdlpProcError (r : ResState) : ResState :=
  if r.headersSent then r else sendErrorJson r 500

/-- The `code !== 0` arm of `proc.on('close', ...)`: error response only if
`!res.headersSent`. -/
def onYtdlpCloseFailure (r : ResState) : ResState :=
  if r.headersSent then r else sendErrorJson r 500

/-- `read.on('error', ...)` of the temp-file stream: error response only if
`!res.headersSent` (the handler also unlinks the temp file, tracked
separately in `runTranscodeTail`). -/
def onReadError (r : ResState) : ResState :=
  if r.headersSent then r else sendErrorJson r 500

/-- `videoResponse.body.on('error', ...)` of the direct-fetch branch: the
failure is only logged; the response state is untouched. -/
def onUpstreamBodyError (r : ResState) : ResState := r

/-- The outer `catch` of the route handler: error response only if
`!res.headersSent`. -/
def onStreamCatch (r : ResState) : ResState :=
  if r.headersSent then r else sendErrorJson r 500

/-- Claim C9: every error write of the streaming handler is guarded by
`headersSent` — after streaming has begun (headers committed), the process
error, non-zero close, read error and outer catch handlers leave the
response untouched, and the upstream mid-stream error handler never writes a
response in any state. -/
theorem stream_error_guards (r : ResState) (h : r.headersSent = true) :
    onYtdlpProcError r = r ∧ onYtdlpCloseFailure r = r ∧ onReadError r = r ∧
    onStreamCatch r = r ∧ (∀ r' : ResState, onUpstreamBodyError r' = r') := by
  refine ⟨?_, ?_, ?_, ?_, fun r' => rfl⟩ <;>
    simp [onYtdlpProcError, onYtdlpCloseFailure, onReadError, onStreamCatch, h]

/-- Witness for C9 at a committed 200 response. -/
theorem stream_error_guards_witness :
    (ResState.mk true 200).headersSent = true ∧
    (onYtdlpProcError (ResState.mk true 200) = ResState.mk true 200 ∧
     onYtdlpCloseFailure (ResState.mk true 200) = ResState.mk true 200 ∧
     onReadError (ResState.mk true 200) = ResState.mk true 200 ∧
     onStreamCatch (ResState.mk true 200) = ResState.mk true 200 ∧
     (∀ r' : ResState, onUpstreamBodyError r' = r')) :=
  ⟨rfl, stream_error_guards (ResState.mk true 200) rfl⟩

/-- Terminal event of the yt-dlp process of the transcode branch. -/
inductive ToolEvent where
  | spawnError
  | closed (code : Int)
deriving DecidableEq, Repr

/-- How the temp-file transfer ends when the tool succeeded: a read error,
a completed stream, or the client disconnecting mid-stream.  In the first
two cases the read stream's own `error`/`close` handlers fire; on a
premature destination close, plain `read.pipe(res)` only unpipes and pauses
the source without destroying it, so the read stream neither ends nor
closes. -/
inductive ReadOutcome where
  | readError
  | endOfStream
  | clientDisconnect
deriving DecidableEq, Repr

/-- Environment of one transcode-branch execution: how the tool run ends,
whether it left the output file on disk, and how the read stream ends when
the tool succeeded. -/
structure TranscodeEnv where
  toolEvent : ToolEvent
  fileWritten : Bool
  readOutcome : ReadOutcome
deriving DecidableEq, Repr

structure TranscodeFinal where
  res : ResState
  tempFileExists : Bool
deriving DecidableEq, Repr

/-- The transcode branch of the streaming handler after spawning yt-dlp
toward the unique temp path: the `error`/`close` process handlers, and on
success the temp-file read stream piped plainly into the response
(`read.pipe(res)`), with `fs.unlinkSync(outPath)` only inside the read
stream's own `error` and `close` handlers.  No handler of the tool-failure
or spawn-error paths unlinks the file, so there it persists exactly when
the tool left it on disk; and on a client disconnect mid-stream the
destination closes but `pipe` never destroys the source, the read stream's
`close` handler never fires, and the file — written by the successful tool
run — persists as well. -/
def runTranscodeTail (env : TranscodeEnv) (r : ResState) : TranscodeFinal :=
  match env.toolEvent with
  | ToolEvent.spawnError => { res := onYtdlpProcError r, tempFileExists := env.fileWritten }
  | ToolEvent.closed code =>
    if code ≠ 0 then { res := onYtdlpCloseFailure r, tempFileExists := env.fileWritten }
    else
      match env.readOutcome with
      | ReadOutcome.readError => { res := onReadError r, tempFileExists := false }
      | ReadOutcome.endOfStream =>
          { res := { headersSent := true, statusCode := r.statusCode }, tempFileExists := false }
      | ReadOutcome.clientDisconnect =>
          { res := { headersSent := true, statusCode := r.statusCode }, tempFileExists := true }

/-- Counterexample to claim C1 as stated: when the tool exits non-zero after
writing the output file, the handler sends its error response (or logs) but
never unlinks the temp path, so the temporary file still exists when the
handler's work for the request ends — the tool-failure exit path violates
the cleanup invariant. -/
theorem transcode_tool_failure_leaves_temp_file :
    (runTranscodeTail
      (TranscodeEnv.mk (ToolEvent.closed 1) true ReadOutcome.endOfStream)
      (ResState.mk false 200)).tempFileExists = true := rfl

/-- Claim C1 (amended): on the transcode path the temp file is removed only
on the exit paths where the read stream's own handlers run — completed
stream and read error after a successful tool run; on a client disconnect
mid-stream the plainly piped read stream is never destroyed, its unlinking
`close` handler never fires, and the file persists, and on tool non-zero
exit or spawn error no removal is attempted either, so the file persists
exactly when the tool left it on disk. -/
theorem transcode_temp_cleanup_policy (env : TranscodeEnv) (r : ResState) :
    (env.toolEvent = ToolEvent.closed 0 →
      env.readOutcome ≠ ReadOutcome.clientDisconnect →
      (runTranscodeTail env r).tempFileExists = false) ∧
    (env.toolEvent = ToolEvent.closed 0 →
      env.readOutcome = ReadOutcome.clientDisconnect →
      (runTranscodeTail env r).tempFileExists = true) ∧
    (∀ c : Int, c ≠ 0 → env.toolEvent = ToolEvent.closed c →
      (runTranscodeTail env r).tempFileExists = env.fileWritten) ∧
    (env.toolEvent = ToolEvent.spawnError →
      (runTranscodeTail env r).tempFileExists = env.fileWritten) := by
  refine ⟨?_, ?_, ?_, ?_⟩
  · intro h hrd
    unfold runTranscodeTail
    rw [h]
    cases hro : env.readOutcome <;> simp
    exact absurd hro hrd
  · intro h hrd
    unfold runTranscodeTail
    rw [h, hrd]
    simp
  · intro c hc h
    unfold runTranscodeTail
    rw [h]
    simp [hc]
  · intro h
    unfold runTranscodeTail
    rw [h]

/-- Witness for the amended C1: a successful transcode whose stream runs to
completion ends with the temp file removed; one whose client disconnects
mid-stream leaves it behind; and a non-zero exit leaves the written file
behind. -/
theorem transcode_temp_cleanup_policy_witness :
    (runTranscodeTail
      (TranscodeEnv.mk (ToolEvent.closed 0) true ReadOutcome.endOfStream)
      (ResState.mk true 200)).tempFileExists = false ∧
    (runTranscodeTail
      (TranscodeEnv.mk (ToolEvent.closed 0) true ReadOutcome.clientDisconnect)
      (ResState.mk true 200)).tempFileExists = true ∧
    (runTranscodeTail
      (TranscodeEnv.mk (ToolEvent.closed 1) true ReadOutcome.endOfStream)
      (ResState.mk false 200)).tempFileExists =
      (TranscodeEnv.mk (ToolEvent.closed 1) true ReadOutcome.endOfStream).fileWritten :=
  ⟨(transcode_temp_cleanup_policy
      (TranscodeEnv.mk (ToolEvent.closed 0) true ReadOutcome.endOfStream)
      (ResState.mk true 200)).1 rfl (by decide),
   (transcode_temp_cleanup_policy
      (TranscodeEnv.mk (ToolEvent.closed 0) true ReadOutcome.clientDisconnect)
      (ResState.mk true 200)).2.1 rfl rfl,
   (transcode_temp_cleanup_policy
      (TranscodeEnv.mk (ToolEvent.closed 1) true ReadOutcome.endOfStream)
      (ResState.mk false 200)).2.2.1 1 (by decide) rfl⟩
